import Mathlib

/-!
A shallow embedding of `harness/harness.go` (package `harness`), the
hierarchical test-execution engine of coreos-mantle.

Modelling conventions:

* The Go struct `H` becomes the structure `H` below.  Pointers to the suite
  collaborator are replaced by the fields the code actually reads
  (`suite.opts.Verbose` becomes `suite.verbose`); the `tap io.Writer` field
  becomes the boolean `tap` recording whether the writer is non-nil.
* Side effects on channels, the concurrency gate and the output writers are
  recorded as an explicit trace of `Event`s, in the order the Go statements
  execute them.  `suite.release()` is `Event.release`, `suite.waitParallel()`
  is `Event.waitParallel`, `close(t.barrier)` is `Event.closeBarrier`,
  `<-sub.signal` for the i-th registered parallel subtest is
  `Event.waitChild i`, `t.signal <- true` is `Event.sendSignal`.
* `time.Duration` values are modelled as natural numbers of nanoseconds; the
  elapsed wall-clock time folded into `duration` is passed as an explicit
  argument.  Go's `%.2f` float formatting is modelled as decimal rounding to
  centiseconds.
* A Go `panic` is modelled as an `Option String` result carrying the panic
  message; `none` means normal termination.
* `Fail` recurses over the parent chain; it is modelled twice, at two
  granularities: `Fail` acts on the explicit ancestor chain (the unit first,
  then its parents up to the root), while inside `finalize` the own-unit
  effect of `t.Fail()` is inlined and the recursion into the parent is the
  event `Event.failParent`.
-/

/-- The suite collaborator state read by the engine: `suite.opts.Verbose`. -/
structure Suite where
  verbose : Bool
deriving DecidableEq

/-- One node of the test tree — the Go struct `H`.  Boolean flags and
counters exactly as in the source; `subCount` is `len(t.sub)`, the number of
registered parallel subtests; `tap` records whether the TAP writer is
configured (non-nil). -/
structure H where
  name : String := ""
  level : Nat := 0
  suite : Suite := ⟨false⟩
  tap : Bool := false
  ran : Bool := false
  failed : Bool := false
  skipped : Bool := false
  finished : Bool := false
  done : Bool := false
  hasSub : Bool := false
  isParallel : Bool := false
  subCount : Nat := 0
  duration : Nat := 0
  start : Nat := 0
deriving DecidableEq

/-- Observable actions of the engine, in Go-statement order. -/
inductive Event where
  /-- `t.suite.release()` — release a concurrency-gate slot. -/
  | release
  /-- `close(t.barrier)` — release all registered parallel subtests. -/
  | closeBarrier
  /-- `<-sub.signal` — wait for the i-th registered parallel subtest. -/
  | waitChild (i : Nat)
  /-- `t.suite.waitParallel()` — acquire a concurrency-gate slot. -/
  | waitParallel
  /-- `fmt.Fprintf(p.w, ...)` — write the header line to the parent buffer. -/
  | writeParent (s : String)
  /-- `fmt.Fprintf(p.tap, ...)` — write one TAP line. -/
  | writeTap (s : String)
  /-- `io.Copy(p.w, &c.output)` — drain the child buffer into the parent. -/
  | copyOutput
  /-- `c.parent.Fail()` — recursive failure propagation to the ancestors. -/
  | failParent
  /-- `t.setRan()` — recursive `ran = true` propagation to the ancestors. -/
  | setRan
  /-- `t.signal <- true` — the unit's one-shot completion signal. -/
  | sendSignal
  /-- `t.parent.sub = append(t.parent.sub, t)` in `Parallel`. -/
  | appendParentSub
  /-- `<-t.parent.barrier` in `Parallel`. -/
  | waitBarrier
  /-- `fmt.Fprintf(root.w, "=== RUN   %s\n", ...)` in `Run`. -/
  | writeRoot (s : String)
deriving DecidableEq

/-- `strings.Replace(c.name, "#", "", -1)`: remove every `#` from a name. -/
def stripHash (s : String) : String :=
  String.mk (s.data.filter (fun ch => ch ≠ '#'))

/-- ASCII digit for `n < 10`. -/
def digitChar (n : Nat) : Char :=
  Char.ofNat (48 + n)

/-- `fmtDuration`: Go's `fmt.Sprintf("%.2fs", d.Seconds())` for a duration of
`d` nanoseconds, modelled as rounding to centiseconds: an integer part, a
dot, exactly two fractional digits, and a trailing `s`. -/
def fmtDuration (d : Nat) : String :=
  let cs := (d + 5000000) / 10000000
  toString (cs / 100) ++ "." ++
    String.mk [digitChar (cs % 100 / 10), digitChar (cs % 100 % 10)] ++ "s"

/-- The TAP line chosen by `flushToParent` for unit `c` (without the
surrounding write): `not ok - name` if failed, `ok - name # SKIP` if skipped
and not failed, `ok - name` otherwise, with `#` stripped from the name. -/
def tapLine (c : H) : String :=
  let name := stripHash c.name
  if c.failed then "not ok - " ++ name ++ "\n"
  else if c.skipped then "ok - " ++ name ++ " # SKIP\n"
  else "ok - " ++ name ++ "\n"

/-- `flushToParent`: write the header to the parent's writer, one TAP line if
the parent's TAP writer is configured, then copy the child's buffered output
into the parent. -/
def flushToParent (c p : H) (header : String) : List Event :=
  Event.writeParent header ::
    ((if p.tap then [Event.writeTap (tapLine c)] else []) ++ [Event.copyOutput])

/-- The status header `--- STATUS: name (duration)` written by `report`. -/
def statusLine (status name dstr : String) : String :=
  "--- " ++ status ++ ": " ++ name ++ " (" ++ dstr ++ ")\n"

/-- `report`: a root unit (nil parent) emits nothing; otherwise flush with
`FAIL` when failed, and in verbose mode with `SKIP`/`PASS`; a passing,
non-skipped unit emits nothing when not verbose. -/
def report (t : H) (parent : Option H) : List Event :=
  match parent with
  | none => []
  | some p =>
    let dstr := fmtDuration t.duration
    if t.failed then flushToParent t p (statusLine "FAIL" t.name dstr)
    else if t.suite.verbose then
      if t.skipped then flushToParent t p (statusLine "SKIP" t.name dstr)
      else flushToParent t p (statusLine "PASS" t.name dstr)
    else []

/-- `{a with failed := true}` — the own-unit effect of `Fail`. -/
def setFailed (a : H) : H :=
  {a with failed := true}

/-- `Fail` on the explicit ancestor chain (the unit first, then its parents
up to the root).  `c.parent.Fail()` runs first; then, under the lock, a unit
whose `done` flag is set panics, otherwise its `failed` flag is set.  The
returned chain is the state after the call (mutations before a panic
persist), the `Option String` is the panic. -/
def Fail : List H → List H × Option String
  | [] => ([], none)
  | u :: ps =>
    match Fail ps with
    | (ps', some m) => (u :: ps', some m)
    | (ps', none) =>
      if u.done then
        (u :: ps', some ("Fail in goroutine after " ++ u.name ++ " has completed"))
      else (setFailed u :: ps', none)

/-- The deferred finalization of `tRunner` (harness.go lines 373–414).
`parent` is `t.parent` (`none` for the root), `elapsed` the wall-clock time
folded into `duration`, `recovered` the value of `recover()`.  Returns the
unit's state after the deferred function, the event trace, and the re-raised
panic if any.  The fault path's `t.Fail()` is inlined: `Event.failParent`
stands for `c.parent.Fail()`, then the own `done` check and `failed := true`. -/
def finalize (t : H) (parent : Option H) (elapsed : Nat)
    (recovered : Option String) : H × List Event × Option String :=
  let t1 : H := {t with duration := t.duration + elapsed}
  let err : Option String :=
    if !t1.finished && recovered.isNone then
      some "test executed panic(nil) or runtime.Goexit"
    else recovered
  if err.isSome then
    let failEvs : List Event := if parent.isSome then [Event.failParent] else []
    if t1.done then
      (t1, failEvs, some ("Fail in goroutine after " ++ t1.name ++ " has completed"))
    else
      let t2 : H := setFailed t1
      (t2, failEvs ++ report t2 parent, err)
  else
    let evs1 : List Event :=
      if 0 < t1.subCount then
        Event.release :: Event.closeBarrier ::
          ((List.range t1.subCount).map Event.waitChild
            ++ if t1.isParallel then [] else [Event.waitParallel])
      else if t1.isParallel then [Event.release] else []
    let evs2 : List Event := report t1 parent
    let t2 : H := {t1 with done := true}
    let runProp : Bool := parent.isSome && !t2.hasSub
    let t3 : H := if runProp then {t2 with ran := true} else t2
    let evs3 : List Event := if runProp then [Event.setRan] else []
    (t3, evs1 ++ evs2 ++ evs3 ++ [Event.sendSignal], none)

/-- `Parallel` (harness.go lines 345–363): a second call panics; a first call
sets `isParallel`, folds the elapsed time into `duration`, registers with the
parent, releases the caller of `Run`, waits on the parent's barrier and the
concurrency gate, and resets the start time to `now`. -/
def Parallel (t : H) (elapsed now : Nat) : H × List Event × Option String :=
  if t.isParallel then
    (t, [], some "testing: t.Parallel called multiple times")
  else
    let t1 : H := {t with isParallel := true, duration := t.duration + elapsed}
    ({t1 with start := now},
      [Event.appendParentSub, Event.sendSignal, Event.waitBarrier,
        Event.waitParallel],
      none)

/-- The child `H` constructed by `Run` for full name `testName`: fresh flags,
fresh channels, the parent's suite, `level` one deeper. -/
def mkChild (t : H) (testName : String) : H :=
  { name := testName, suite := t.suite, level := t.level + 1 }

/-- How the body's goroutine hands control to the deferred finalization:
normal return, `runtime.Goexit` (from `FailNow`/`SkipNow`), or a panic. -/
inductive BodyOutcome where
  | ret
  | goexit
  | panicked (msg : String)

/-- `tRunner` run to completion on one goroutine: execute the body, set
`finished` on a normal return, then run the deferred finalization with the
recovered panic value. -/
def tRunner (t : H) (body : H → H × BodyOutcome) (parent : Option H)
    (elapsed : Nat) : H × List Event × Option String :=
  let (t1, out) := body t
  match out with
  | BodyOutcome.ret => finalize {t1 with finished := true} parent elapsed none
  | BodyOutcome.goexit => finalize t1 parent elapsed none
  | BodyOutcome.panicked m => finalize t1 parent elapsed (some m)

/-- The result of `Run` as observed by its caller: the parent's updated
state, the trace, the final state of the constructed child (`none` when the
name was filtered out and no child was constructed), and the returned boolean
(`none` when the child's goroutine re-panicked, aborting the run). -/
structure RunOutcome where
  parent : H
  events : List Event
  child : Option H
  ret : Option Bool
deriving DecidableEq

/-- The selection collaborator's answer `t.suite.match.fullName(t, name)`. -/
structure MatchResult where
  fullName : String
  ok : Bool

/-- `Run` (harness.go lines 423–457): mark the parent as having subtests; if
the selection collaborator filters the name out, return `true` with no child;
otherwise construct the child, print `=== RUN` when verbose, run `tRunner`,
wait for the completion signal and return the negation of the child's
`failed` flag. -/
def Run (t : H) (m : MatchResult) (body : H → H × BodyOutcome)
    (elapsed : Nat) : RunOutcome :=
  let t1 : H := {t with hasSub := true}
  if !m.ok then ⟨t1, [], none, some true⟩
  else
    let runEvs : List Event :=
      if t1.suite.verbose then [Event.writeRoot ("=== RUN   " ++ m.fullName ++ "\n")]
      else []
    match tRunner (mkChild t1 m.fullName) body (some t1) elapsed with
    | (c, evs, some _) => ⟨t1, runEvs ++ evs, some c, none⟩
    | (c, evs, none) => ⟨t1, runEvs ++ evs, some c, some (!c.failed)⟩

/-- Every engine operation that mutates a single unit's state, with its
parameters; `applyOp` below projects each source operation's effect on the
unit's own record. -/
inductive EngineOp where
  /-- The own-unit effect of `Fail`. -/
  | failOwn
  /-- `FailNow`: `Fail`, then `finished = true`, then `runtime.Goexit`. -/
  | failNow
  /-- `skip()`: `skipped = true`. -/
  | skipOp
  /-- `SkipNow`: `skip()`, then `finished = true`, then `runtime.Goexit`. -/
  | skipNow
  /-- `t.finished = true` at the end of `tRunner`'s body call. -/
  | bodyFinished
  /-- The own-unit effect of `setRan`. -/
  | setRanOwn
  /-- `t.hasSub = true` at the top of `Run` (on the parent). -/
  | markHasSub
  /-- The deferred finalization of `tRunner`. -/
  | finalizeOp (parent : Option H) (elapsed : Nat) (recovered : Option String)
  /-- `Parallel`. -/
  | parallelOp (elapsed now : Nat)

/-- The state effect of each engine operation on the unit it acts on. -/
def applyOp : EngineOp → H → H
  | EngineOp.failOwn, t => if t.done then t else setFailed t
  | EngineOp.failNow, t => if t.done then t else {setFailed t with finished := true}
  | EngineOp.skipOp, t => {t with skipped := true}
  | EngineOp.skipNow, t => {t with skipped := true, finished := true}
  | EngineOp.bodyFinished, t => {t with finished := true}
  | EngineOp.setRanOwn, t => {t with ran := true}
  | EngineOp.markHasSub, t => {t with hasSub := true}
  | EngineOp.finalizeOp parent elapsed recovered, t =>
      (finalize t parent elapsed recovered).1
  | EngineOp.parallelOp elapsed now, t => (Parallel t elapsed now).1

/-! ### Helper lemmas -/

lemma Fail_all_not_done (l : List H) (h : ∀ a ∈ l, a.done = false) :
    Fail l = (l.map setFailed, none) := by
  induction l with
  | nil => rfl
  | cons u ps ih =>
    have hu : u.done = false := h u (List.mem_cons_self u ps)
    have hps := ih (fun a ha => h a (List.mem_cons_of_mem u ha))
    simp [Fail, hps, hu]

lemma Fail_idem (l : List H) : Fail (Fail l).1 = Fail l := by
  induction l with
  | nil => rfl
  | cons u ps ih =>
    rcases hps : Fail ps with ⟨ps', e⟩
    rw [hps] at ih
    cases e with
    | some m => simp [Fail, hps, ih]
    | none =>
      by_cases hd : u.done
      · simp [Fail, hps, ih, hd]
      · simp [Fail, hps, ih, hd, setFailed]

lemma Fail_head_done (u : H) (ps : List H) (h : u.done = true) :
    (Fail (u :: ps)).2.isSome = true := by
  rcases hps : Fail ps with ⟨ps', e⟩
  cases e <;> simp [Fail, hps, h]

/-! ### C4: Fail marks the unit and every ancestor, idempotently -/

/-- C4: `Fail` on a unit (ancestor chain `u :: ps`, the unit first) marks the
unit and, recursively, every ancestor up to the root as failed; it is
idempotent; and calling it on a unit whose `done` flag is set panics,
aborting the process. -/
theorem Fail_spec (u : H) (ps : List H) :
    ((∀ a ∈ u :: ps, a.done = false) →
      Fail (u :: ps) = ((u :: ps).map setFailed, none)) ∧
    Fail (Fail (u :: ps)).1 = Fail (u :: ps) ∧
    (u.done = true → (Fail (u :: ps)).2.isSome = true) :=
  ⟨Fail_all_not_done (u :: ps), Fail_idem (u :: ps), Fail_head_done u ps⟩

/-- Witness for C4 at a concrete two-unit chain with no `done` flag set. -/
theorem Fail_spec_witness :
    Fail [({name := "a"} : H), ({name := "b"} : H)]
      = (([({name := "a"} : H), ({name := "b"} : H)]).map setFailed, none) :=
  (Fail_spec {name := "a"} [{name := "b"}]).1 (by decide)

/-! ### C10: Fail after done mutates ancestors before the panic -/

/-- C10 (counterexample): with the unit and its single ancestor both `done`,
`Fail` panics (the process aborts) while the ancestor's `failed` flag is
still false — so it is not the case that every ancestor is marked failed
before the panic fires. -/
theorem Fail_after_done_counterexample :
    (({name := "u", done := true} : H)).done = true ∧
    Fail [({name := "u", done := true} : H), ({name := "p", done := true} : H)]
      = ([({name := "u", done := true} : H), ({name := "p", done := true} : H)],
          some "Fail in goroutine after p has completed") ∧
    (({name := "p", done := true} : H)).failed = false := by
  refine ⟨rfl, ?_, rfl⟩
  decide

/-- C10 (amended): when `Fail` is called on a unit whose `done` flag is set
and none of whose ancestors is `done`, every ancestor is marked failed and
only then does the unit's own `done` check fire the process-aborting panic;
the abort is not atomic. -/
theorem Fail_after_done_marks_ancestors (u : H) (ps : List H)
    (hu : u.done = true) (hps : ∀ a ∈ ps, a.done = false) :
    (Fail (u :: ps)).1 = u :: ps.map setFailed ∧
    (Fail (u :: ps)).2
      = some ("Fail in goroutine after " ++ u.name ++ " has completed") := by
  have h := Fail_all_not_done ps hps
  constructor <;> simp [Fail, h, hu]

/-- Witness for the amended C10: unit done, single ancestor not done. -/
theorem Fail_after_done_marks_ancestors_witness :
    (Fail [({name := "u", done := true} : H), ({name := "p"} : H)]).1
      = ({name := "u", done := true} : H) :: ([({name := "p"} : H)]).map setFailed ∧
    (Fail [({name := "u", done := true} : H), ({name := "p"} : H)]).2
      = some ("Fail in goroutine after "
          ++ ({name := "u", done := true} : H).name ++ " has completed") :=
  Fail_after_done_marks_ancestors {name := "u", done := true} [{name := "p"}]
    rfl (by decide)

/-! ### C6: Parallel is one-shot -/

/-- C6: a second call to `Parallel` on the same unit panics (aborting the
process) with the state unchanged, so `isParallel` is set at most once; a
first call sets `isParallel`, folds the elapsed time into `duration`, then —
in this order — appends the unit to the parent's parallel-children list,
sends the completion-style signal releasing `Run`'s caller, waits on the
parent's barrier, waits on the shared concurrency gate, and resets the start
time. -/
theorem Parallel_spec (t : H) (elapsed now : Nat) :
    (t.isParallel = true →
      Parallel t elapsed now
        = (t, [], some "testing: t.Parallel called multiple times")) ∧
    (t.isParallel = false →
      Parallel t elapsed now
        = ({t with
              isParallel := true, duration := t.duration + elapsed,
              start := now},
            [Event.appendParentSub, Event.sendSignal, Event.waitBarrier,
              Event.waitParallel],
            none)) := by
  constructor <;> intro h <;> simp [Parallel, h]

/-- Witness for C6: both the repeated call and the first call, concretely. -/
theorem Parallel_spec_witness :
    Parallel ({name := "a", isParallel := true} : H) 1 2
      = ({name := "a", isParallel := true}, [],
          some "testing: t.Parallel called multiple times") ∧
    Parallel ({name := "a"} : H) 1 2
      = ({name := "a", isParallel := true, duration := 1, start := 2},
          [Event.appendParentSub, Event.sendSignal, Event.waitBarrier,
            Event.waitParallel],
          none) :=
  ⟨(Parallel_spec {name := "a", isParallel := true} 1 2).1 rfl,
    (Parallel_spec {name := "a"} 1 2).2 rfl⟩

/-! ### C7: the TAP line -/

/-- The payload of a TAP write event. -/
def tapPayload : Event → Option String
  | Event.writeTap s => some s
  | _ => none

/-- C7: when the parent's TAP destination is configured, `flushToParent`
writes exactly one TAP line: `not ok - name` if the unit failed (even when
also skipped), `ok - name # SKIP` if skipped and not failed, `ok - name`
otherwise, with every `#` first removed from the name. -/
theorem flushToParent_tap (c p : H) (header : String) (htap : p.tap = true) :
    (flushToParent c p header).filterMap tapPayload
      = [if c.failed then "not ok - " ++ stripHash c.name ++ "\n"
         else if c.skipped then "ok - " ++ stripHash c.name ++ " # SKIP\n"
         else "ok - " ++ stripHash c.name ++ "\n"] := by
  by_cases hf : c.failed <;> by_cases hs : c.skipped <;>
    simp [flushToParent, tapLine, tapPayload, htap, hf, hs]

/-- Witness for C7: a failed-and-skipped unit with a `#` in its name is
reported as `not ok` with the `#` stripped. -/
theorem flushToParent_tap_witness :
    (flushToParent ({name := "a#b", failed := true, skipped := true} : H)
        ({tap := true} : H) "hdr").filterMap tapPayload
      = ["not ok - ab\n"] :=
  (flushToParent_tap {name := "a#b", failed := true, skipped := true}
      {tap := true} "hdr" rfl).trans (by decide)

/-! ### C8: report emission policy -/

/-- C8: a root unit (nil parent) never reports; a non-root unit flushes with
status `FAIL` whenever its `failed` flag is set; with verbose enabled a
non-failed unit flushes with `SKIP` if skipped and `PASS` otherwise; and the
status header has the form `--- STATUS: name (duration)` where the duration
is an integer part, a dot, exactly two fractional digits and a trailing
`s`. -/
theorem report_spec (t : H) (p : H) (d : Nat) :
    report t none = [] ∧
    (t.failed = true →
      report t (some p)
        = flushToParent t p (statusLine "FAIL" t.name (fmtDuration t.duration))) ∧
    (t.failed = false → t.suite.verbose = true →
      report t (some p)
        = flushToParent t p
            (statusLine (if t.skipped then "SKIP" else "PASS") t.name
              (fmtDuration t.duration))) ∧
    (∃ intPart frac : String,
      fmtDuration d = intPart ++ "." ++ frac ++ "s" ∧ frac.length = 2) := by
  refine ⟨rfl, ?_, ?_, ?_⟩
  · intro hf
    simp [report, hf]
  · intro hf hv
    by_cases hs : t.skipped <;> simp [report, hf, hv, hs]
  · exact ⟨toString ((d + 5000000) / 10000000 / 100),
      String.mk [digitChar ((d + 5000000) / 10000000 % 100 / 10),
        digitChar ((d + 5000000) / 10000000 % 100 % 10)], rfl, rfl⟩

/-- Witness for C8: a failed unit reports `--- FAIL: x (87.00s)`. -/
theorem report_spec_witness :
    report ({name := "x", failed := true, duration := 87000000000} : H)
        (some ({} : H))
      = flushToParent ({name := "x", failed := true, duration := 87000000000} : H)
          ({} : H) (statusLine "FAIL" "x" "87.00s") :=
  ((report_spec {name := "x", failed := true, duration := 87000000000} {} 0).2.1
      rfl).trans (by decide)

/-! ### C9: a passing unit is invisible without verbose -/

/-- Whether an event writes to an output or TAP destination or copies
buffered output. -/
def Event.isOutput : Event → Bool
  | Event.writeParent _ => true
  | Event.writeTap _ => true
  | Event.copyOutput => true
  | Event.writeRoot _ => true
  | _ => false

lemma mem_flushToParent_isOutput {e : Event} {c p : H} {hdr : String}
    (h : e ∈ flushToParent c p hdr) : e.isOutput = true := by
  by_cases ht : p.tap <;> simp [flushToParent, ht] at h <;>
    rcases h with rfl | rfl | rfl <;> rfl

lemma mem_report_isOutput {e : Event} {t : H} {parent : Option H}
    (h : e ∈ report t parent) : e.isOutput = true := by
  cases parent with
  | none => simp [report] at h
  | some p =>
    by_cases hf : t.failed
    · exact mem_flushToParent_isOutput (by simpa [report, hf] using h)
    · by_cases hv : t.suite.verbose
      · by_cases hs : t.skipped
        · exact mem_flushToParent_isOutput (by simpa [report, hf, hv, hs] using h)
        · exact mem_flushToParent_isOutput (by simpa [report, hf, hv, hs] using h)
      · simp [report, hf, hv] at h

lemma filter_isOutput_waitChildren (n : Nat) :
    ((List.range n).map Event.waitChild).filter Event.isOutput = [] := by
  rw [List.filter_eq_nil_iff]
  intro a ha
  rcases List.mem_map.mp ha with ⟨i, _, rfl⟩
  simp [Event.isOutput]

lemma report_quiet_nil (t : H) (parent : Option H)
    (hf : t.failed = false) (hv : t.suite.verbose = false) :
    report t parent = [] := by
  cases parent with
  | none => rfl
  | some p => simp [report, hf, hv]

/-- C9: a non-root unit that did not fail emits nothing at all when verbose
mode is disabled: `report` produces no events (no status header, no TAP line
even with a TAP destination configured, no copy of the buffered output into
the parent), and the whole finalization trace contains no output event —
even when the unit is skipped. -/
theorem quiet_pass_invisible (t p : H) (el : Nat)
    (hf : t.failed = false) (hv : t.suite.verbose = false)
    (hfin : t.finished = true) :
    report t (some p) = [] ∧
    ((finalize t (some p) el none).2.1.filter Event.isOutput) = [] := by
  refine ⟨by simp [report, hf, hv], ?_⟩
  by_cases hsub : 0 < t.subCount <;> by_cases hpar : t.isParallel <;>
    by_cases hhs : t.hasSub <;>
      simp [finalize, hfin, hsub, hpar, hhs, hf, hv, List.filter_append,
        filter_isOutput_waitChildren, report_quiet_nil, Event.isOutput]

/-- Witness for C9: a skipped, non-failed unit with a TAP-configured parent
is completely invisible. -/
theorem quiet_pass_invisible_witness :
    report ({name := "s", skipped := true, finished := true} : H)
        (some ({tap := true} : H)) = [] ∧
    ((finalize ({name := "s", skipped := true, finished := true} : H)
        (some ({tap := true} : H)) 3 none).2.1.filter Event.isOutput) = [] :=
  quiet_pass_invisible {name := "s", skipped := true, finished := true}
    {tap := true} 3 rfl rfl rfl

/-! ### C1: the fault path of finalization -/

/-- C1: when the body's goroutine ends without the `finished` flag and with
no recovered fault, or ends with a recovered fault, finalization marks the
unit failed, flushes its buffered report (the `--- FAIL` header and the
output copy) to the parent, and re-raises a panic that aborts the run; the
fault-free, finished path re-raises nothing. -/
theorem finalize_fault_path (t : H) (p : H) (el : Nat) (hd : t.done = false) :
    (t.finished = false →
      (finalize t (some p) el none).1.failed = true ∧
      Event.writeParent (statusLine "FAIL" t.name (fmtDuration (t.duration + el)))
        ∈ (finalize t (some p) el none).2.1 ∧
      Event.copyOutput ∈ (finalize t (some p) el none).2.1 ∧
      (finalize t (some p) el none).2.2
        = some "test executed panic(nil) or runtime.Goexit") ∧
    (∀ msg : String,
      (finalize t (some p) el (some msg)).1.failed = true ∧
      Event.writeParent (statusLine "FAIL" t.name (fmtDuration (t.duration + el)))
        ∈ (finalize t (some p) el (some msg)).2.1 ∧
      Event.copyOutput ∈ (finalize t (some p) el (some msg)).2.1 ∧
      (finalize t (some p) el (some msg)).2.2 = some msg) ∧
    (t.finished = true → (finalize t (some p) el none).2.2 = none) := by
  refine ⟨?_, ?_, ?_⟩
  · intro hfin
    by_cases htap : p.tap <;>
      simp [finalize, hd, hfin, report, setFailed, flushToParent, htap]
  · intro msg
    by_cases htap : p.tap <;>
      simp [finalize, hd, report, setFailed, flushToParent, htap]
  · intro hfin
    simp [finalize, hfin]

/-- Witness for C1: a concrete unit whose body panicked with `boom`. -/
theorem finalize_fault_path_witness :
    (finalize ({name := "w"} : H) (some ({} : H)) 0 (some "boom")).1.failed
        = true ∧
    (finalize ({name := "w"} : H) (some ({} : H)) 0 (some "boom")).2.2
        = some "boom" :=
  ⟨((finalize_fault_path {name := "w"} {} 0 rfl).2.1 "boom").1,
    ((finalize_fault_path {name := "w"} {} 0 rfl).2.1 "boom").2.2.2⟩

/-! ### C2: the parallel-subtest join sequence -/

lemma not_output_not_mem_report {e : Event} (h : e.isOutput = false)
    (t : H) (parent : Option H) : e ∉ report t parent := by
  intro hm
  have hout := mem_report_isOutput hm
  rw [h] at hout
  exact Bool.noConfusion hout

/-- C2: after a fault-free body completion, a unit with registered parallel
children releases its gate slot, closes the barrier (exactly once — the rest
of the trace never closes it again), waits for each registered parallel
child's completion signal, and then re-acquires a gate slot if and only if
the unit was not itself parallel (a parallel unit never re-acquires); a unit
with no parallel children releases its slot at this point if and only if it
was itself parallel. -/
theorem finalize_parallel_join (t : H) (parent : Option H) (el : Nat)
    (hfin : t.finished = true) :
    (0 < t.subCount →
      ∃ post,
        (finalize t parent el none).2.1
          = Event.release :: Event.closeBarrier ::
              ((List.range t.subCount).map Event.waitChild
                ++ (if t.isParallel then [] else [Event.waitParallel]) ++ post) ∧
        Event.closeBarrier ∉ post ∧ Event.release ∉ post ∧
        Event.waitParallel ∉ post) ∧
    (t.subCount = 0 →
      (Event.release ∈ (finalize t parent el none).2.1 ↔ t.isParallel = true)) ∧
    (t.isParallel = true →
      Event.waitParallel ∉ (finalize t parent el none).2.1) := by
  refine ⟨?_, ?_, ?_⟩
  · intro hsub
    refine ⟨report {t with duration := t.duration + el} parent
        ++ ((if parent.isSome && !t.hasSub then [Event.setRan] else [])
            ++ [Event.sendSignal]), ?_, ?_, ?_, ?_⟩
    · simp [finalize, hfin, hsub, List.append_assoc]
    · simp only [List.mem_append]
      rintro (h | h | h)
      · exact not_output_not_mem_report (e := Event.closeBarrier) rfl _ _ h
      · revert h
        by_cases hrp : parent.isSome && !t.hasSub <;> simp [hrp]
      · simp at h
    · simp only [List.mem_append]
      rintro (h | h | h)
      · exact not_output_not_mem_report (e := Event.release) rfl _ _ h
      · revert h
        by_cases hrp : parent.isSome && !t.hasSub <;> simp [hrp]
      · simp at h
    · simp only [List.mem_append]
      rintro (h | h | h)
      · exact not_output_not_mem_report (e := Event.waitParallel) rfl _ _ h
      · revert h
        by_cases hrp : parent.isSome && !t.hasSub <;> simp [hrp]
      · simp at h
  · intro hsub
    by_cases hpar : t.isParallel <;>
      simp [finalize, hfin, hsub, hpar,
        not_output_not_mem_report (e := Event.release) rfl]
  · intro hpar
    by_cases hsub : 0 < t.subCount <;>
      simp [finalize, hfin, hsub, hpar,
        not_output_not_mem_report (e := Event.waitParallel) rfl]

/-- Witness for C2: a finished unit with two registered parallel children,
not itself parallel. -/
theorem finalize_parallel_join_witness :
    ∃ post,
      (finalize ({name := "c", finished := true, subCount := 2} : H)
          (some ({} : H)) 0 none).2.1
        = Event.release :: Event.closeBarrier ::
            ((List.range 2).map Event.waitChild
              ++ [Event.waitParallel] ++ post) ∧
      Event.closeBarrier ∉ post ∧ Event.release ∉ post ∧
      Event.waitParallel ∉ post :=
  (finalize_parallel_join {name := "c", finished := true, subCount := 2}
      (some {}) 0 rfl).1 (by decide)

/-! ### C3: state invariants across every engine operation -/

lemma finalize_done_imp_finished (t : H) (parent : Option H) (el : Nat)
    (rec : Option String) (h : t.done = true → t.finished = true) :
    (finalize t parent el rec).1.done = true →
    (finalize t parent el rec).1.finished = true := by
  cases rec with
  | some m =>
    by_cases hd : t.done <;> simp [finalize, hd, setFailed] <;> exact h hd
  | none =>
    by_cases hfin : t.finished
    · by_cases hrp : parent.isSome && !t.hasSub <;>
        simp [finalize, hfin, hrp]
    · by_cases hd : t.done <;> simp [finalize, hfin, hd, setFailed] <;>
        exact absurd (h hd) hfin

lemma finalize_failed_mono (t : H) (parent : Option H) (el : Nat)
    (rec : Option String) (h : t.failed = true) :
    (finalize t parent el rec).1.failed = true := by
  cases rec with
  | some m => by_cases hd : t.done <;> simp [finalize, hd, setFailed, h]
  | none =>
    by_cases hfin : t.finished
    · by_cases hrp : parent.isSome && !t.hasSub <;>
        simp [finalize, hfin, hrp, h]
    · by_cases hd : t.done <;> simp [finalize, hfin, hd, setFailed, h]

/-- C3: every engine operation preserves `done = true → finished = true` and
never resets the `failed` flag from true to false, and a freshly constructed
unit starts with `done` and `failed` false — so at every point of a unit's
lifetime `done` implies `finished` and `failed` is monotonic. -/
theorem engine_invariants (op : EngineOp) (t : H) (p : H) (n : String)
    (hinv : t.done = true → t.finished = true) :
    ((applyOp op t).done = true → (applyOp op t).finished = true) ∧
    (t.failed = true → (applyOp op t).failed = true) ∧
    (mkChild p n).done = false ∧ (mkChild p n).failed = false := by
  refine ⟨?_, ?_, rfl, rfl⟩
  · cases op with
    | failOwn =>
        by_cases hd : t.done <;> simp [applyOp, hd, setFailed] <;> exact hinv hd
    | failNow =>
        by_cases hd : t.done <;> simp [applyOp, hd, setFailed] <;> exact hinv hd
    | skipOp => simpa [applyOp] using hinv
    | skipNow => simp [applyOp]
    | bodyFinished => simp [applyOp]
    | setRanOwn => simpa [applyOp] using hinv
    | markHasSub => simpa [applyOp] using hinv
    | finalizeOp parent el rec =>
        exact finalize_done_imp_finished t parent el rec hinv
    | parallelOp el now =>
        by_cases hp : t.isParallel <;> simpa [applyOp, Parallel, hp] using hinv
  · intro hf
    cases op with
    | failOwn => by_cases hd : t.done <;> simp [applyOp, hd, setFailed, hf]
    | failNow => by_cases hd : t.done <;> simp [applyOp, hd, setFailed, hf]
    | skipOp => simpa [applyOp] using hf
    | skipNow => simpa [applyOp] using hf
    | bodyFinished => simpa [applyOp] using hf
    | setRanOwn => simpa [applyOp] using hf
    | markHasSub => simpa [applyOp] using hf
    | finalizeOp parent el rec => exact finalize_failed_mono t parent el rec hf
    | parallelOp el now =>
        by_cases hp : t.isParallel <;> simpa [applyOp, Parallel, hp] using hf

/-- Witness for C3: the finalization of a concrete finished, failed unit. -/
theorem engine_invariants_witness :
    ((applyOp (EngineOp.finalizeOp (some ({} : H)) 2 none)
        ({name := "v", failed := true, finished := true} : H)).done = true →
      (applyOp (EngineOp.finalizeOp (some ({} : H)) 2 none)
        ({name := "v", failed := true, finished := true} : H)).finished = true) ∧
    (({name := "v", failed := true, finished := true} : H).failed = true →
      (applyOp (EngineOp.finalizeOp (some ({} : H)) 2 none)
        ({name := "v", failed := true, finished := true} : H)).failed = true) ∧
    (mkChild ({} : H) "w").done = false ∧ (mkChild ({} : H) "w").failed = false :=
  engine_invariants (EngineOp.finalizeOp (some ({} : H)) 2 none)
    {name := "v", failed := true, finished := true} {} "w" (fun _ => rfl)

/-! ### C5: Run's filtering and return value -/

lemma finalize_none_sendSignal (t : H) (parent : Option H) (el : Nat)
    (rec : Option String)
    (h : (finalize t parent el rec).2.2 = none) :
    Event.sendSignal ∈ (finalize t parent el rec).2.1 := by
  cases rec with
  | some m => by_cases hd : t.done <;> simp [finalize, hd] at h
  | none =>
    by_cases hfin : t.finished
    · simp [finalize, hfin]
    · by_cases hd : t.done <;> simp [finalize, hfin, hd] at h

lemma tRunner_sendSignal (t : H) (body : H → H × BodyOutcome)
    (parent : Option H) (el : Nat)
    (h : (tRunner t body parent el).2.2 = none) :
    Event.sendSignal ∈ (tRunner t body parent el).2.1 := by
  rcases hb : body t with ⟨t1, out⟩
  cases out <;> simp only [tRunner, hb] at h ⊢ <;>
    exact finalize_none_sendSignal _ _ _ _ h

/-- C5: when the selection collaborator filters the fully-qualified name out,
`Run` returns true immediately with no child unit constructed; otherwise it
constructs the child, runs it, and — when the child's goroutine did not
re-panic — has waited for the completion signal (the signal send is in the
trace) and returns true if and only if the child's `failed` flag is false. -/
theorem Run_spec (t : H) (m : MatchResult) (body : H → H × BodyOutcome)
    (el : Nat) :
    (m.ok = false →
      Run t m body el = ⟨{t with hasSub := true}, [], none, some true⟩) ∧
    (m.ok = true →
      ∀ c evs pan,
        tRunner (mkChild {t with hasSub := true} m.fullName) body
            (some {t with hasSub := true}) el = (c, evs, pan) →
        (Run t m body el).child = some c ∧
        (pan = none →
          (Run t m body el).ret = some (!c.failed) ∧
          Event.sendSignal ∈ (Run t m body el).events)) := by
  constructor
  · intro hok
    simp [Run, hok]
  · intro hok c evs pan htr
    cases pan with
    | some msg =>
      refine ⟨?_, ?_⟩
      · simp [Run, hok, htr]
      · intro hcontra
        exact Option.noConfusion hcontra
    | none =>
      refine ⟨?_, fun _ => ⟨?_, ?_⟩⟩
      · simp [Run, hok, htr]
      · simp [Run, hok, htr]
      · have hs : Event.sendSignal
            ∈ (tRunner (mkChild {t with hasSub := true} m.fullName) body
                (some {t with hasSub := true}) el).2.1 :=
          tRunner_sendSignal _ _ _ _ (by rw [htr])
        rw [htr] at hs
        simp only [Prod.snd] at hs
        by_cases hv : t.suite.verbose <;> simp [Run, hok, htr, hv] <;>
          simpa using hs

/-- Witness for C5: a filtered-out name returns success with no child. -/
theorem Run_spec_witness :
    Run ({name := "r"} : H) ⟨"r/a", false⟩ (fun c => (c, BodyOutcome.ret)) 0
      = ⟨{name := "r", hasSub := true}, [], none, some true⟩ :=
  (Run_spec {name := "r"} ⟨"r/a", false⟩ (fun c => (c, BodyOutcome.ret)) 0).1 rfl
